import Mathlib

/-!
Verification of the chessboard-UI coordination layer (ChessGame / Toolbar /
MoveList and the lib "chess" helpers), embedded shallowly.

The chess-rules engine (chess.js) is an external collaborator of the program
and is out of the program's scope; it is modelled as an abstract record of
operations on an opaque game-state type `γ`, with move records of type `μ`.
Mutation of the single engine instance held in `gameRef` is modelled by
explicit state passing: an engine operation that mutates the instance returns
the new engine state.

The component's React state (the `useState` fields plus the `gameRef`) is
modelled by the record `UIState`; each event handler of the component becomes
a function `UIState → UIState` (or `UIState → Bool × UIState` for `tryMove`,
which also returns its success flag).
-/

set_option linter.unusedVariables false

/-- A board square, from the template-literal type
`${file a..h}${rank 1..8}`: a file character and a rank character.
The source accesses the rank as `to[1]`, here the field `rankC`. -/
structure Square where
  fileC : Char
  rankC : Char
deriving DecidableEq, Repr

/-- A piece as returned by the engine's `get`: a type tag
('p','n','b','r','q','k') and a color tag ('w','b'), as in chess.js. -/
structure Piece where
  ptype : Char
  color : Char
deriving DecidableEq, Repr

/-- The rules-engine contract of spec section 6, as the component uses it.
`γ` is the opaque engine state, `μ` the verbose move-record type.
`movesFrom g sq` models `g.moves({ square: sq, verbose: true }).map(m => m.to)`
(the engine's reported legal destination squares from `sq`);
`move g f t promo` models `g.move({from, to[, promotion]})`, returning the
mutated state on legality and `none` on an illegal move; `undo` models
`g.undo()`, returning `none` when there was nothing to undo;
`history` models `g.history({ verbose: true })`; `init` models `new Chess()`. -/
structure Engine (γ μ : Type) where
  get : γ → Square → Option Piece
  turn : γ → Char
  movesFrom : γ → Square → List Square
  move : γ → Square → Square → Option Char → Option γ
  undo : γ → Option γ
  history : γ → List μ
  fen : γ → String
  pgn : γ → String
  isCheckmate : γ → Bool
  isStalemate : γ → Bool
  isThreefoldRepetition : γ → Bool
  isInsufficientMaterial : γ → Bool
  isDraw : γ → Bool
  isCheck : γ → Bool
  isGameOver : γ → Bool
  init : γ

/-- The component's state: the `gameRef` engine instance plus the `useState`
fields `fen`, `pgn`, `moves`, `status`, `selected`, `legalTargets`,
`lastMove`. -/
structure UIState (γ μ : Type) where
  game : γ
  fen : String
  pgn : String
  moves : List μ
  status : String
  selected : Option Square
  legalTargets : List Square
  lastMove : Option (Square × Square)
deriving DecidableEq

/-- `computeStatus` from src/lib/chess.ts: the if-chain mapping engine
predicates to the displayed status string. -/
def computeStatus {γ μ : Type} (E : Engine γ μ) (g : γ) : String :=
  if E.isCheckmate g then
    "Checkmate — " ++ (if E.turn g = 'w' then "Black" else "White") ++ " wins"
  else if E.isStalemate g then "Stalemate"
  else if E.isThreefoldRepetition g then "Draw — threefold repetition"
  else if E.isInsufficientMaterial g then "Draw — insufficient material"
  else if E.isDraw g then "Draw"
  else if E.isCheck g then
    (if E.turn g = 'w' then "White" else "Black") ++ " to move — CHECK"
  else (if E.turn g = 'w' then "White" else "Black") ++ " to move"

/-- `historyPairs` from src/lib/chess.ts: the loop
`for (i = 0; i < moves.length; i += 2) pairs.push({white: moves[i] ?? null,
black: moves[i+1] ?? null})`. Since the loop runs only while `i < length`,
the white slot of an emitted pair is always present; the black slot is
absent exactly when `i + 1` is out of range (final pair of an odd list). -/
def historyPairs {α : Type} : List α → List (Option α × Option α)
  | [] => []
  | [a] => [(some a, none)]
  | a :: b :: rest => (some a, some b) :: historyPairs rest

/-- `isPromotionMove` from ChessGame.tsx: the piece at `from` is a pawn and
the target rank character is '8' for a white pawn or '1' for a black pawn. -/
def isPromotionMove {γ μ : Type} (E : Engine γ μ) (g : γ) (src dst : Square) : Bool :=
  match E.get g src with
  | none => false
  | some piece =>
    if piece.ptype ≠ 'p' then false
    else (piece.color = 'w' && dst.rankC = '8') || (piece.color = 'b' && dst.rankC = '1')

/-- `syncFromGame` from ChessGame.tsx: re-derives `fen`, `pgn`, `moves` and
`status` from the engine state `g` (which at the call sites is the mutated
`gameRef.current`, so the `game` field holds `g` as well). -/
def syncFromGame {γ μ : Type} (E : Engine γ μ) (g : γ) (s : UIState γ μ) : UIState γ μ :=
  { s with game := g, fen := E.fen g, pgn := E.pgn g,
           moves := E.history g, status := computeStatus E g }

/-- `clearSelection` from ChessGame.tsx. -/
def clearSelection {γ μ : Type} (s : UIState γ μ) : UIState γ μ :=
  { s with selected := none, legalTargets := [] }

/-- `selectSquare` from ChessGame.tsx: deselect when the square is empty or
holds a piece of the side not to move; otherwise select it and store the
engine's legal destinations. -/
def selectSquare {γ μ : Type} (E : Engine γ μ) (s : UIState γ μ) (sq : Square) : UIState γ μ :=
  match E.get s.game sq with
  | none => clearSelection s
  | some piece =>
    if piece.color ≠ E.turn s.game then clearSelection s
    else { s with selected := some sq, legalTargets := E.movesFrom s.game sq }

/-- The `const move = isPromotionMove(...) ? g.move({from,to,promotion:"q"})
: g.move({from,to})` expression inside `tryMove`. -/
def moveResult {γ μ : Type} (E : Engine γ μ) (g : γ) (src dst : Square) : Option γ :=
  if isPromotionMove E g src dst then E.move g src dst (some 'q')
  else E.move g src dst none

/-- `tryMove` from ChessGame.tsx (the spec's `trySubmitMove`): on engine
rejection returns `false` with the state untouched; on acceptance sets the
last move, clears the selection and re-syncs the derived fields, returning
`true`. -/
def tryMove {γ μ : Type} (E : Engine γ μ) (s : UIState γ μ) (src dst : Square) :
    Bool × UIState γ μ :=
  match moveResult E s.game src dst with
  | none => (false, s)
  | some g' => (true, syncFromGame E g' (clearSelection { s with lastMove := some (src, dst) }))

/-- `onNewGame` from ChessGame.tsx: fresh engine instance, clear last move
and selection, re-sync. -/
def onNewGame {γ μ : Type} (E : Engine γ μ) (s : UIState γ μ) : UIState γ μ :=
  syncFromGame E E.init (clearSelection { s with lastMove := none, game := E.init })

/-- `onUndo` from ChessGame.tsx: if the engine reports nothing undone the
handler returns before any state change; otherwise it clears the last move
and the selection and re-syncs from the (mutated) engine state. -/
def onUndo {γ μ : Type} (E : Engine γ μ) (s : UIState γ μ) : UIState γ μ :=
  match E.undo s.game with
  | none => s
  | some g' => syncFromGame E g' (clearSelection { s with lastMove := none })

/-- `onCopyPGN` from ChessGame.tsx: `await navigator.clipboard.writeText(pgn)`
with no catch. The clipboard is modelled as a fallible writer; on failure the
rejection propagates out of the async function (carrying no state), on
success the function completes. Neither path touches any state field. -/
def onCopyPGN {γ μ : Type} (s : UIState γ μ) (write : String → Except String Unit) :
    Except String (UIState γ μ) :=
  match write s.pgn with
  | Except.ok _ => Except.ok s
  | Except.error e => Except.error e

/-- The component state visible after the Copy-PGN button handler ran: React's
onClick discards the promise returned by `onCopyPGN`, so neither the resolved
nor the rejected outcome feeds back into any state setter or rendered text. -/
def visibleAfterCopyPGN {γ μ : Type} (s : UIState γ μ)
    (write : String → Except String Unit) : UIState γ μ :=
  match onCopyPGN s write with
  | Except.ok s' => s'
  | Except.error _ => s

/-- The enabled/disabled configuration of the three toolbar buttons as
rendered by Toolbar.tsx. -/
structure ToolbarView where
  newGameDisabled : Bool
  undoDisabled : Bool
  copyPGNDisabled : Bool
deriving DecidableEq, Repr

/-- `Toolbar` from Toolbar.tsx: New game has no `disabled` attribute, Undo
and Copy PGN are both `disabled={!canUndo}`; the `isGameOver` prop is
accepted but not destructured, so it is unused. -/
def Toolbar (canUndo : Bool) (isGameOver : Bool) : ToolbarView :=
  { newGameDisabled := false
    undoDisabled := !canUndo
    copyPGNDisabled := !canUndo }

/-- The Toolbar as instantiated inside ChessGame.tsx:
`canUndo={moves.length > 0}` and `isGameOver={gameRef.current.isGameOver()}`. -/
def chessGameToolbar {γ μ : Type} (E : Engine γ μ) (s : UIState γ μ) : ToolbarView :=
  Toolbar (decide (s.moves.length > 0)) (E.isGameOver s.game)

/-- The component's initial state: `fen` from the fresh engine, `pgn` the
literal `""`, `moves` the literal `[]`, `status` the literal
"White to move", no selection, no legal targets, no last move. -/
def initialState {γ μ : Type} (E : Engine γ μ) : UIState γ μ :=
  { game := E.init, fen := E.fen E.init, pgn := "", moves := [],
    status := "White to move", selected := none, legalTargets := [],
    lastMove := none }

/-- The states the component can reach: the initial state, closed under the
state-changing operations (each composite handler — `onSquareClick`,
`onPieceDrop`, `onPieceDragBegin` — only chains these). -/
inductive Reachable {γ μ : Type} (E : Engine γ μ) : UIState γ μ → Prop
  | init : Reachable E (initialState E)
  | select (s : UIState γ μ) (sq : Square) :
      Reachable E s → Reachable E (selectSquare E s sq)
  | clear (s : UIState γ μ) :
      Reachable E s → Reachable E (clearSelection s)
  | move (s : UIState γ μ) (src dst : Square) :
      Reachable E s → Reachable E (tryMove E s src dst).2
  | newGame (s : UIState γ μ) :
      Reachable E s → Reachable E (onNewGame E s)
  | undo (s : UIState γ μ) :
      Reachable E s → Reachable E (onUndo E s)

/-! ### The status deriver, restated from the spec's words
For the refinement claim about `computeStatus`, the spec's description
("evaluated in strict priority order, first match wins") is modelled as a
first-match scan over an ordered rule list. -/

/-- First-match scan: returns the message of the first rule whose flag holds,
or the fallback. Modelled from the spec: "evaluated in strict priority order
(first match wins)". -/
def firstMatch : List (Bool × String) → String → String
  | [], d => d
  | (b, m) :: rest, d => if b then m else firstMatch rest d

/-- The spec's ordered rule list for the status deriver:
checkmate > stalemate > threefold > insufficient material > generic draw >
check; checkmate names the side NOT to move as winner, check names the side
to move. -/
def statusRules {γ μ : Type} (E : Engine γ μ) (g : γ) : List (Bool × String) :=
  [ (E.isCheckmate g,
      "Checkmate — " ++ (if E.turn g = 'w' then "Black" else "White") ++ " wins"),
    (E.isStalemate g, "Stalemate"),
    (E.isThreefoldRepetition g, "Draw — threefold repetition"),
    (E.isInsufficientMaterial g, "Draw — insufficient material"),
    (E.isDraw g, "Draw"),
    (E.isCheck g,
      (if E.turn g = 'w' then "White" else "Black") ++ " to move — CHECK") ]

/-- The spec-side status deriver: first-match over `statusRules`, with the
normal "X to move" fallback. -/
def computeStatusSpec {γ μ : Type} (E : Engine γ μ) (g : γ) : String :=
  firstMatch (statusRules E g) ((if E.turn g = 'w' then "White" else "Black") ++ " to move")

/-! ### Concrete test fixtures for witnesses -/

/-- Square e2. -/
def sqE2 : Square := ⟨'e', '2'⟩
/-- Square e3. -/
def sqE3 : Square := ⟨'e', '3'⟩
/-- Square e4. -/
def sqE4 : Square := ⟨'e', '4'⟩
/-- Square e5. -/
def sqE5 : Square := ⟨'e', '5'⟩
/-- Square e7. -/
def sqE7 : Square := ⟨'e', '7'⟩
/-- Square a3. -/
def sqA3 : Square := ⟨'a', '3'⟩
/-- Square a7. -/
def sqA7 : Square := ⟨'a', '7'⟩
/-- Square a8. -/
def sqA8 : Square := ⟨'a', '8'⟩

/-- A tiny concrete engine used only to evaluate the theorems on concrete
inputs. Its state is the number of moves played along one scripted line:
state 0 has a white pawn on e2 whose only legal moves are e3/e4 and the only
accepted move is e2-e4; state 1 has a black pawn on e7 and accepts e7-e5;
state 2 has a white pawn on a7 and accepts a7-a8 only with promotion 'q'.
Undo steps the counter back; history has one entry per move played. -/
def MiniEngine : Engine Nat String where
  get g sq :=
    if g = 0 ∧ sq = sqE2 then some ⟨'p', 'w'⟩
    else if g = 1 ∧ sq = sqE7 then some ⟨'p', 'b'⟩
    else if g = 2 ∧ sq = sqA7 then some ⟨'p', 'w'⟩
    else none
  turn g := if g % 2 = 0 then 'w' else 'b'
  movesFrom g sq :=
    if g = 0 ∧ sq = sqE2 then [sqE3, sqE4]
    else if g = 2 ∧ sq = sqA7 then [sqA8]
    else []
  move g src dst promo :=
    if g = 0 ∧ src = sqE2 ∧ dst = sqE4 ∧ promo = none then some 1
    else if g = 1 ∧ src = sqE7 ∧ dst = sqE5 ∧ promo = none then some 2
    else if g = 2 ∧ src = sqA7 ∧ dst = sqA8 ∧ promo = some 'q' then some 3
    else none
  undo g := if g = 0 then none else some (g - 1)
  history g := (List.range g).map (fun i => "m" ++ Nat.repr i)
  fen g := "fen" ++ Nat.repr g
  pgn g := "pgn" ++ Nat.repr g
  isCheckmate _ := false
  isStalemate _ := false
  isThreefoldRepetition _ := false
  isInsufficientMaterial _ := false
  isDraw _ := false
  isCheck _ := false
  isGameOver _ := false
  init := 0

/-- An engine with prescribed status flags and side to move, used only to
evaluate the status-deriver theorem on concrete flag combinations. -/
def FlagEngine (cm st th im dr ck : Bool) (t : Char) : Engine Unit String where
  get _ _ := none
  turn _ := t
  movesFrom _ _ := []
  move _ _ _ _ := none
  undo _ := none
  history _ := []
  fen _ := ""
  pgn _ := ""
  isCheckmate _ := cm
  isStalemate _ := st
  isThreefoldRepetition _ := th
  isInsufficientMaterial _ := im
  isDraw _ := dr
  isCheck _ := ck
  isGameOver _ := cm || st || dr
  init := ()

/-! ## Helper lemmas -/

theorem historyPairs_length {α : Type} :
    ∀ l : List α, (historyPairs l).length = (l.length + 1) / 2
  | [] => by simp [historyPairs]
  | [_] => by simp [historyPairs]
  | _ :: _ :: l => by
      simp only [historyPairs, List.length_cons]
      rw [historyPairs_length l]
      omega

theorem historyPairs_getElem {α : Type} :
    ∀ (l : List α) (i : Nat),
      (historyPairs l)[i]? =
        if 2 * i < l.length then some (l[2 * i]?, l[2 * i + 1]?) else none
  | [], i => by simp [historyPairs]
  | [a], 0 => by simp [historyPairs]
  | [a], i + 1 => by simp [historyPairs]
  | a :: b :: l, 0 => by simp [historyPairs]
  | a :: b :: l, i + 1 => by
      have ih := historyPairs_getElem l i
      have e1 : (a :: b :: l)[2 * (i + 1)]? = l[2 * i]? := by
        rw [show 2 * (i + 1) = 2 * i + 1 + 1 by ring]
        simp [List.getElem?_cons_succ]
      have e2 : (a :: b :: l)[2 * (i + 1) + 1]? = l[2 * i + 1]? := by
        rw [show 2 * (i + 1) + 1 = 2 * i + 1 + 1 + 1 by ring]
        simp [List.getElem?_cons_succ]
      show ((some a, some b) :: historyPairs l)[i + 1]? = _
      rw [List.getElem?_cons_succ, ih, e1, e2]
      simp only [List.length_cons]
      by_cases h : 2 * i < l.length
      · rw [if_pos h, if_pos (by omega)]
      · rw [if_neg h, if_neg (by omega)]

/-! ## Claim theorems -/

/-- C1: a move the rules engine rejects (the `g.move` call returns a falsy
result) makes `tryMove` return failure with every state field — selection,
legal targets, last move, fen, pgn, history, status and the engine instance —
exactly as before the call. -/
theorem c1_tryMove_reject_frame {γ μ : Type} (E : Engine γ μ) (s : UIState γ μ)
    (src dst : Square) (h : moveResult E s.game src dst = none) :
    tryMove E s src dst = (false, s) := by
  unfold tryMove
  rw [h]

/-- C1 witness: from the initial MiniEngine position the move e2-e5 is
rejected and the state is returned untouched. -/
theorem c1_witness :
    tryMove MiniEngine (initialState MiniEngine) sqE2 sqE5 =
      (false, initialState MiniEngine) :=
  c1_tryMove_reject_frame MiniEngine (initialState MiniEngine) sqE2 sqE5 (by decide)

/-- C4: `isPromotionMove` holds exactly when the piece at the source square
is a pawn whose color matches the far rank of the target ('8' for white,
'1' for black), and the move submitted to the engine carries promotion 'q'
exactly in that case and no promotion argument otherwise. -/
theorem c4_promotion_spec {γ μ : Type} (E : Engine γ μ) (g : γ) (src dst : Square) :
    (isPromotionMove E g src dst = true ↔
      ∃ p : Piece, E.get g src = some p ∧ p.ptype = 'p' ∧
        ((p.color = 'w' ∧ dst.rankC = '8') ∨ (p.color = 'b' ∧ dst.rankC = '1'))) ∧
    moveResult E g src dst =
      E.move g src dst (if isPromotionMove E g src dst then some 'q' else none) := by
  constructor
  · unfold isPromotionMove
    cases h : E.get g src with
    | none => simp
    | some p =>
        by_cases hp : p.ptype = 'p'
        · simp [hp, Bool.or_eq_true, Bool.and_eq_true, decide_eq_true_iff]
        · simp [hp]
  · unfold moveResult
    split <;> simp_all

/-- C6: `historyPairs` chunks the move list two at a time in order: pair i
holds exactly entries 2i and 2i+1 of the input (no reordering, no
filtering), the empty list gives the empty pair list, the pair count is
⌈n/2⌉, and an odd-length list of length 2k+1 gives k+1 pairs whose last
pair has an absent black slot. -/
theorem c6_historyPairs_spec {α : Type} (l : List α) :
    (l = [] → historyPairs l = []) ∧
    (historyPairs l).length = (l.length + 1) / 2 ∧
    (∀ i : Nat, (historyPairs l)[i]? =
      if 2 * i < l.length then some (l[2 * i]?, l[2 * i + 1]?) else none) ∧
    (∀ k : Nat, l.length = 2 * k + 1 →
      (historyPairs l).length = k + 1 ∧
      (historyPairs l)[k]? = some (l[2 * k]?, none)) := by
  refine ⟨?_, historyPairs_length l, historyPairs_getElem l, ?_⟩
  · rintro rfl
    rfl
  · intro k hk
    refine ⟨by rw [historyPairs_length l, hk]; omega, ?_⟩
    rw [historyPairs_getElem l]
    have h1 : 2 * k < l.length := by omega
    have h2 : l[2 * k + 1]? = none := by
      rw [List.getElem?_eq_none]
      omega
    rw [if_pos h1, h2]

/-- C6 witness: the three-element list gives two pairs, with the final
pair's black slot absent. -/
theorem c6_witness :
    (historyPairs (["a", "b", "c"] : List String)).length = 2 ∧
    (historyPairs (["a", "b", "c"] : List String))[1]? = some (some "c", none) := by
  have h := c6_historyPairs_spec (["a", "b", "c"] : List String)
  exact ⟨h.2.1, (h.2.2.2 1 rfl).2⟩

/-- C9: whatever the clipboard write does — and in particular when it fails —
the state visible after the Copy-PGN handler is exactly the state before it,
and a failing write surfaces nothing: the rejection carries no state change
and no handler consumes it. -/
theorem c9_onCopyPGN_frame {γ μ : Type} (s : UIState γ μ)
    (write : String → Except String Unit) :
    visibleAfterCopyPGN s write = s ∧
    (∀ e : String, onCopyPGN s write = Except.error e →
      visibleAfterCopyPGN s write = s) := by
  unfold visibleAfterCopyPGN onCopyPGN
  cases write s.pgn <;> simp

/-- C9 witness: with a clipboard writer that always fails, the handler
reports the failure yet the visible state is untouched. -/
theorem c9_witness :
    visibleAfterCopyPGN (initialState MiniEngine)
        (fun _ => Except.error "denied") = initialState MiniEngine ∧
    onCopyPGN (initialState MiniEngine) (fun _ => Except.error "denied") =
      Except.error "denied" :=
  ⟨(c9_onCopyPGN_frame (initialState MiniEngine) (fun _ => Except.error "denied")).2
      "denied" rfl,
    rfl⟩

/-- C10: in the toolbar as instantiated by the component, Undo and Copy PGN
are disabled exactly when the move history is empty (both gated by the one
canUndo flag, which is history length > 0), New game is never disabled, and
the isGameOver prop has no effect on the rendered buttons. -/
theorem c10_toolbar_spec {γ μ : Type} (E : Engine γ μ) (s : UIState γ μ) :
    ((chessGameToolbar E s).undoDisabled = true ↔ s.moves = []) ∧
    (chessGameToolbar E s).copyPGNDisabled = (chessGameToolbar E s).undoDisabled ∧
    (chessGameToolbar E s).newGameDisabled = false ∧
    (∀ c g1 g2 : Bool, Toolbar c g1 = Toolbar c g2) := by
  refine ⟨?_, rfl, rfl, fun c g1 g2 => rfl⟩
  unfold chessGameToolbar Toolbar
  simp only [Bool.not_eq_true', decide_eq_false_iff_not, gt_iff_lt, Nat.not_lt,
    Nat.le_zero, List.length_eq_zero]

/-- C2: a move the rules engine accepts makes `tryMove` return success with
last move set to the submitted (from, to), empty selection and legal
targets, and fen, pgn, history and status re-derived from the mutated
engine state; given the engine contract that an applied move appends one
history entry and that the stored history was in sync, the stored history
length grows by exactly one. -/
theorem c2_tryMove_accept_sync {γ μ : Type} (E : Engine γ μ) (s : UIState γ μ)
    (src dst : Square) (g' : γ)
    (hmv : moveResult E s.game src dst = some g')
    (hlen : (E.history g').length = (E.history s.game).length + 1)
    (hsync : s.moves = E.history s.game) :
    tryMove E s src dst =
      (true, { game := g', fen := E.fen g', pgn := E.pgn g',
               moves := E.history g', status := computeStatus E g',
               selected := none, legalTargets := [],
               lastMove := some (src, dst) }) ∧
    ((tryMove E s src dst).2).moves.length = s.moves.length + 1 := by
  unfold tryMove
  rw [hmv]
  refine ⟨rfl, ?_⟩
  show (E.history g').length = s.moves.length + 1
  rw [hsync]
  exact hlen

/-- C2 witness: from the initial MiniEngine position, e2-e4 is accepted;
the result has last move (e2, e4), no selection, no legal targets, and one
history entry. -/
theorem c2_witness :
    (tryMove MiniEngine (initialState MiniEngine) sqE2 sqE4).1 = true ∧
    ((tryMove MiniEngine (initialState MiniEngine) sqE2 sqE4).2).lastMove =
      some (sqE2, sqE4) ∧
    ((tryMove MiniEngine (initialState MiniEngine) sqE2 sqE4).2).selected = none ∧
    ((tryMove MiniEngine (initialState MiniEngine) sqE2 sqE4).2).legalTargets = [] ∧
    ((tryMove MiniEngine (initialState MiniEngine) sqE2 sqE4).2).moves.length =
      (initialState MiniEngine).moves.length + 1 := by
  have h := c2_tryMove_accept_sync MiniEngine (initialState MiniEngine) sqE2 sqE4 1
    (by decide) (by decide) rfl
  refine ⟨?_, ?_, ?_, ?_, h.2⟩ <;> rw [h.1]

/-- C3: `selectSquare` on a square with no piece or a piece of the side not
to move leaves the state with cleared selection and legal targets; on a
square with a piece of the side to move it selects that square and stores
exactly the engine's reported legal destinations, all other fields
untouched. -/
theorem c3_selectSquare_spec {γ μ : Type} (E : Engine γ μ) (s : UIState γ μ)
    (sq : Square) :
    ((∀ p : Piece, E.get s.game sq = some p → p.color ≠ E.turn s.game) →
      selectSquare E s sq = clearSelection s) ∧
    (∀ p : Piece, E.get s.game sq = some p → p.color = E.turn s.game →
      selectSquare E s sq =
        { s with selected := some sq, legalTargets := E.movesFrom s.game sq }) := by
  unfold selectSquare
  cases h : E.get s.game sq with
  | none =>
      refine ⟨fun _ => rfl, fun p hp => ?_⟩
      exact absurd hp (by simp)
  | some p =>
      constructor
      · intro hall
        show (if p.color ≠ E.turn s.game then clearSelection s
              else { s with selected := some sq,
                            legalTargets := E.movesFrom s.game sq }) =
          clearSelection s
        rw [if_pos (hall p rfl)]
      · intro q hq hcol
        obtain rfl : p = q := by injection hq
        show (if p.color ≠ E.turn s.game then clearSelection s
              else { s with selected := some sq,
                            legalTargets := E.movesFrom s.game sq }) =
          { s with selected := some sq, legalTargets := E.movesFrom s.game sq }
        rw [if_neg (fun hn => hn hcol)]

/-- C3 witness: in the initial MiniEngine position, clicking the empty a3
clears the selection, and clicking the own pawn on e2 selects e2 with the
engine's reported targets e3 and e4. -/
theorem c3_witness :
    selectSquare MiniEngine (initialState MiniEngine) sqA3 =
      clearSelection (initialState MiniEngine) ∧
    (selectSquare MiniEngine (initialState MiniEngine) sqE2).selected = some sqE2 ∧
    (selectSquare MiniEngine (initialState MiniEngine) sqE2).legalTargets =
      [sqE3, sqE4] := by
  have h0 := c3_selectSquare_spec MiniEngine (initialState MiniEngine) sqA3
  have h2 := (c3_selectSquare_spec MiniEngine (initialState MiniEngine) sqE2).2
    ⟨'p', 'w'⟩ (by decide) (by decide)
  refine ⟨h0.1 ?_, ?_, ?_⟩
  · intro p hp
    have hnone : MiniEngine.get (initialState MiniEngine).game sqA3 = none := by decide
    rw [hnone] at hp
    cases hp
  · rw [h2]
  · rw [h2]
    decide

/-- C5: `computeStatus` coincides with the spec's first-match scan over the
priority-ordered rule list (checkmate, stalemate, threefold repetition,
insufficient material, generic draw, check, with normal-to-move fallback);
the checkmate message names the side not to move as the winner, and the
check message names the side to move. -/
theorem c5_computeStatus_spec {γ μ : Type} (E : Engine γ μ) (g : γ) :
    computeStatus E g = computeStatusSpec E g ∧
    (E.isCheckmate g = true →
      computeStatus E g =
        "Checkmate — " ++ (if E.turn g = 'w' then "Black" else "White") ++ " wins") ∧
    (E.isCheckmate g = false → E.isStalemate g = false →
      E.isThreefoldRepetition g = false → E.isInsufficientMaterial g = false →
      E.isDraw g = false → E.isCheck g = true →
      computeStatus E g =
        (if E.turn g = 'w' then "White" else "Black") ++ " to move — CHECK") := by
  refine ⟨?_, ?_, ?_⟩
  · unfold computeStatus computeStatusSpec statusRules firstMatch
    rfl
  · intro h
    unfold computeStatus
    rw [if_pos h]
  · intro h1 h2 h3 h4 h5 h6
    simp only [computeStatus, h1, h2, h3, h4, h5, h6]
    rfl

/-- C5 witness: with every flag raised and white to move the status is the
checkmate message naming Black as winner (checkmate outranks everything),
and with only the check flag raised and black to move the status is the
check message naming Black. -/
theorem c5_witness :
    computeStatus (FlagEngine true true true true true true 'w') () =
      "Checkmate — Black wins" ∧
    computeStatus (FlagEngine false false false false false true 'b') () =
      "Black to move — CHECK" ∧
    computeStatus (FlagEngine true true true true true true 'w') () =
      computeStatusSpec (FlagEngine true true true true true true 'w') () := by
  have h1 := c5_computeStatus_spec (FlagEngine true true true true true true 'w') ()
  have h2 := c5_computeStatus_spec (FlagEngine false false false false false true 'b') ()
  exact ⟨(h1.2.1 rfl).trans (by decide),
    (h2.2.2 rfl rfl rfl rfl rfl rfl).trans (by decide), h1.1⟩

/-- C7: `onUndo` when the engine reports nothing undone changes no state
field at all (the handler returns first); when the engine undoes a move it
clears last move, selection and legal targets and re-derives fen, pgn,
history and status from the engine state. -/
theorem c7_onUndo_spec {γ μ : Type} (E : Engine γ μ) (s : UIState γ μ) :
    (E.undo s.game = none → onUndo E s = s) ∧
    (∀ g' : γ, E.undo s.game = some g' →
      onUndo E s =
        { game := g', fen := E.fen g', pgn := E.pgn g',
          moves := E.history g', status := computeStatus E g',
          selected := none, legalTargets := [], lastMove := none }) := by
  unfold onUndo
  cases h : E.undo s.game with
  | none => exact ⟨fun _ => rfl, fun g' hg => absurd hg (by simp)⟩
  | some g0 =>
      refine ⟨fun hn => absurd hn (by simp), fun g' hg => ?_⟩
      obtain rfl : g0 = g' := by injection hg
      rfl

/-- C7 witness: undo on the fresh MiniEngine game is a no-op, and undo
after one move resets last move and steps the engine state back. -/
theorem c7_witness :
    onUndo MiniEngine (initialState MiniEngine) = initialState MiniEngine ∧
    (onUndo MiniEngine { initialState MiniEngine with game := 1 }).game = 0 ∧
    (onUndo MiniEngine { initialState MiniEngine with game := 1 }).lastMove = none := by
  have h0 := (c7_onUndo_spec MiniEngine (initialState MiniEngine)).1 (by decide)
  have h1 := (c7_onUndo_spec MiniEngine { initialState MiniEngine with game := 1 }).2 0
    (by decide)
  refine ⟨h0, ?_, ?_⟩ <;> rw [h1]

theorem selection_inv_aux {γ μ : Type} (E : Engine γ μ) :
    ∀ t : UIState γ μ, Reachable E t → t.selected = none → t.legalTargets = [] := by
  intro t ht
  induction ht with
  | init => intro _; rfl
  | select s sq hs ih =>
      intro hsel
      unfold selectSquare at hsel ⊢
      cases h : E.get s.game sq with
      | none => rfl
      | some p =>
          rw [h] at hsel
          by_cases hc : p.color ≠ E.turn s.game
          · show (if p.color ≠ E.turn s.game then clearSelection s
                  else { s with selected := some sq,
                                legalTargets := E.movesFrom s.game sq }).legalTargets = []
            rw [if_pos hc]
            rfl
          · exfalso
            revert hsel
            show (if p.color ≠ E.turn s.game then clearSelection s
                  else { s with selected := some sq,
                                legalTargets := E.movesFrom s.game sq }).selected =
                none → False
            rw [if_neg hc]
            intro hsel
            cases hsel
  | clear s hs ih => intro _; rfl
  | move s src dst hs ih =>
      intro hsel
      unfold tryMove at hsel ⊢
      cases h : moveResult E s.game src dst with
      | none => rw [h] at hsel; exact ih hsel
      | some g' => rfl
  | newGame s hs ih => intro _; rfl
  | undo s hs ih =>
      intro hsel
      unfold onUndo at hsel ⊢
      cases h : E.undo s.game with
      | none => rw [h] at hsel; exact ih hsel
      | some g' => rfl

/-- C8: in every reachable component state — the initial state closed under
selectSquare, clearSelection, tryMove, onNewGame and onUndo — an empty
selection comes with an empty set of legal-target squares. -/
theorem c8_selection_invariant {γ μ : Type} (E : Engine γ μ) (s : UIState γ μ)
    (hr : Reachable E s) (hsel : s.selected = none) :
    s.legalTargets = [] :=
  selection_inv_aux E s hr hsel

/-- C8 witness: the state reached by selecting e2 and then playing e2-e4 has
an empty selection, and indeed its legal targets are empty. -/
theorem c8_witness :
    ((tryMove MiniEngine
        (selectSquare MiniEngine (initialState MiniEngine) sqE2)
        sqE2 sqE4).2).legalTargets = [] :=
  c8_selection_invariant MiniEngine _
    (Reachable.move _ sqE2 sqE4 (Reachable.select _ sqE2 Reachable.init))
    (by decide)
